import Mathlib

/-!
Verification of the recap application (`src/main.py`), a Flask wrapper
around the App Engine Search API.  The Python code is shallowly embedded:
Python values arriving from JSON are modelled by `PyVal`, strings by
`List Char`, the asynchronous Search API backend by outcome functions,
and each Python function by a Lean function of the same name (leading
underscores dropped where Lean requires).
-/

set_option maxHeartbeats 1000000

namespace Recap

/-- Python values as they can arrive from `flask.request.get_json` or be
passed by a caller: `None`, booleans, integers, strings, JSON arrays and
JSON objects (whose keys are strings). -/
inductive PyVal where
  | pyNone
  | pyBool (b : Bool)
  | pyInt (n : Int)
  | pyStr (s : List Char)
  | pyList (l : List PyVal)
  | pyDict (entries : List (List Char × PyVal))

/-- Python `isinstance(v, basestring)`. -/
def isPyStr : PyVal → Bool
  | .pyStr _ => true
  | _ => false

/-- The `sre_constants.error` conditions `re.sub` can raise for the
replacement template (and the tokenizer's bogus-escape error), as in
Python 2.7 `sre_parse`. -/
inductive ReError where
  | bogusEscape
  | unterminatedGroupName
  | missingGroupName
  | negativeGroupNumber
  | unknownGroupName
  | badCharacterInGroupName
  | invalidGroupReference
deriving DecidableEq

/-- One item of a parsed `re.sub` replacement template
(`sre_parse.parse_template`): a literal character or a group reference. -/
inductive TemplateItem where
  | lit (c : Char)
  | mark (n : Nat)
deriving DecidableEq

/-- Python exceptions raised by the embedded functions. -/
inductive PyError where
  | typeError
  | valueError
  | reError (e : ReError)
deriving DecidableEq

/-- Python `string.digits`. -/
def string_digits : List Char := "0123456789".toList

/-- Python `string.ascii_lowercase`. -/
def string_ascii_lowercase : List Char := "abcdefghijklmnopqrstuvwxyz".toList

/-- Python `string.ascii_uppercase`. -/
def string_ascii_uppercase : List Char := "ABCDEFGHIJKLMNOPQRSTUVWXYZ".toList

/-- Python `string.punctuation` (braces, backtick and apostrophe written
as hex escapes). -/
def string_punctuation : List Char :=
  "!\"#$%&\x27()*+,-./:;<=>?@[\\]^_\x60\x7b|\x7d~".toList

/-- Python `string.whitespace`. -/
def string_whitespace : List Char := " \t\n\x0b\x0c\r".toList

/-- Python `string.printable`: digits, letters, punctuation and whitespace. -/
def string_printable : List Char :=
  string_digits ++ string_ascii_lowercase ++ string_ascii_uppercase ++
    string_punctuation ++ string_whitespace

/-- `main._VISIBLE_PRINTABLE_ASCII`: `set(string.printable) - set(string.whitespace)`,
modelled as the printable characters that are not whitespace. -/
def VISIBLE_PRINTABLE_ASCII : List Char :=
  string_printable.filter (fun c => decide (c ∉ string_whitespace))

/-- `search.MAXIMUM_DOCUMENT_ID_LENGTH` of the external App Engine Search
API backend contract (value 500, as the spec states: identifiers are 1..500
characters). -/
def MAXIMUM_DOCUMENT_ID_LENGTH : Nat := 500

/-- Python `s.startswith(p)` on strings modelled as character lists. -/
def startsWithList : List Char → List Char → Bool
  | _, [] => true
  | [], _ :: _ => false
  | c :: cs, p :: ps => c == p && startsWithList cs ps

/-- Python `s.endswith(p)` on strings modelled as character lists. -/
def endsWithList (s p : List Char) : Bool :=
  startsWithList s.reverse p.reverse

/-- `main._is_valid_doc_id`: a document identifier is valid when it is a
string of 1..500 characters, all in `_VISIBLE_PRINTABLE_ASCII`, that does
not begin with an exclamation point and does not both begin and end with a
double underscore.  Any non-string input yields `false`. -/
def is_valid_doc_id (doc_id : PyVal) : Bool :=
  match doc_id with
  | .pyStr s =>
    let length := s.length
    if length ≤ 0 ∨ MAXIMUM_DOCUMENT_ID_LENGTH < length then false
    else if startsWithList s ['!'] then false
    else if startsWithList s ['_', '_'] && endsWithList s ['_', '_'] then false
    else s.all (fun c => decide (c ∈ VISIBLE_PRINTABLE_ASCII))
  | _ => false

/-- The identifier rule exactly as the spec words it: 1..500 characters,
visible printable ASCII (codes 33..126), no leading `!`, not wrapped in
double underscores. -/
def spec_valid_identifier (s : List Char) : Prop :=
  1 ≤ s.length ∧ s.length ≤ 500 ∧
    (∀ c ∈ s, 33 ≤ c.toNat ∧ c.toNat ≤ 126) ∧
    startsWithList s ['!'] = false ∧
    ¬(startsWithList s ['_', '_'] = true ∧ endsWithList s ['_', '_'] = true)

/-- A document identifier, as handled by the gateway. -/
def DocId : Type := List Char

/-- `search.TextField`: a named text field of a document. -/
structure TextField where
  name : List Char
  value : List Char
deriving DecidableEq

/-- `search.Document`: a document identifier together with its fields. -/
structure Document where
  doc_id : List Char
  fields : List TextField
deriving DecidableEq

/-- An element of the list passed to `main._put`.  Python is duck-typed, so
the list may hold values that are not `search.Document` instances; `_put`
filters those out before doing anything else. -/
inductive PutItem where
  | document (d : Document)
  | nonDocument

/-- The outcome the Search API backend reports when one chunk future is
awaited: success, a generic `search.DeleteError`/`search.PutError`, a
`DeadlineExceededError`, or an `OverQuotaError`. -/
inductive ChunkOutcome where
  | ok
  | backendError
  | deadlineExceeded
  | overQuota
deriving DecidableEq

/-- `search.MAXIMUM_DOCUMENTS_PER_PUT_REQUEST` of the external App Engine
Search API backend contract: the maximum batch size per call. -/
def MAXIMUM_DOCUMENTS_PER_PUT_REQUEST : Nat := 200

/-- `main._BATCH_SIZE`. -/
def BATCH_SIZE : Nat := MAXIMUM_DOCUMENTS_PER_PUT_REQUEST

/-- `main._SAFETY_LIMIT`. -/
def SAFETY_LIMIT : Nat := 15000

/-- The chunking loop `for i in xrange(0, length, _BATCH_SIZE)` slicing
`l[i:i+_BATCH_SIZE]`, written as structural recursion that peels one
batch-sized slice per step.  The first argument is fuel bounding the list
length, so `chunksLoop l.length l` covers the whole list. -/
def chunksLoop {α : Type} : Nat → List α → List (List α)
  | _, [] => []
  | 0, _ :: _ => []
  | fuel + 1, l => l.take BATCH_SIZE :: chunksLoop fuel (l.drop BATCH_SIZE)

/-- The list of chunks `main._delete`/`main._put` dispatch: consecutive
slices of at most `_BATCH_SIZE` elements. -/
def chunkList {α : Type} (l : List α) : List (List α) :=
  chunksLoop l.length l

/-- The `for future in futures` loop of `main._delete`: each future is
awaited in order; a `DeleteError` or `DeadlineExceededError` is logged and
the loop continues, while an `OverQuotaError` is logged and the function
returns, leaving the remaining futures unawaited.  The result is the list
of outcomes actually awaited. -/
def awaitDelete : List ChunkOutcome → List ChunkOutcome
  | [] => []
  | o :: rest =>
    match o with
    | .overQuota => [ChunkOutcome.overQuota]
    | .ok => ChunkOutcome.ok :: awaitDelete rest
    | .backendError => ChunkOutcome.backendError :: awaitDelete rest
    | .deadlineExceeded => ChunkOutcome.deadlineExceeded :: awaitDelete rest

/-- The `for future in futures` loop of `main._put`, identical to the one
in `main._delete` except that the generic error class is `PutError`. -/
def awaitPut : List ChunkOutcome → List ChunkOutcome
  | [] => []
  | o :: rest =>
    match o with
    | .overQuota => [ChunkOutcome.overQuota]
    | .ok => ChunkOutcome.ok :: awaitPut rest
    | .backendError => ChunkOutcome.backendError :: awaitPut rest
    | .deadlineExceeded => ChunkOutcome.deadlineExceeded :: awaitPut rest

/-- Observable trace of one `_delete`/`_put` call: whether the safety-limit
`ValueError` was raised, which chunks were dispatched as asynchronous
calls, and the outcomes of the futures that were awaited. -/
structure CallTrace (α : Type) where
  overLimitError : Bool
  dispatched : List (List α)
  awaited : List ChunkOutcome

/-- `main._delete`: raises `ValueError` when `ids` exceeds the safety
limit (before creating any future); otherwise dispatches one asynchronous
delete per batch-sized chunk and awaits the futures in order.  The
environment is abstracted by `outcomes`, giving the outcome of the `i`-th
future.  Python never inspects the elements of `ids`, so the model is
polymorphic in them. -/
def deleteCall {α : Type} (ids : List α) (outcomes : Nat → ChunkOutcome) :
    CallTrace α :=
  if ids.length > SAFETY_LIMIT then ⟨true, [], []⟩
  else
    let futures := chunkList ids
    ⟨false, futures, awaitDelete ((List.range futures.length).map outcomes)⟩

/-- The `isinstance(document, search.Document)` filter at the top of
`main._put`. -/
def filterDocuments (documents : List PutItem) : List Document :=
  documents.filterMap fun it =>
    match it with
    | .document d => some d
    | .nonDocument => Option.none

/-- `main._put`: drops the entries that are not `search.Document`
instances, raises `ValueError` when the remaining list exceeds the safety
limit, and otherwise dispatches one asynchronous put per batch-sized chunk
and awaits the futures in order. -/
def putCall (documents : List PutItem) (outcomes : Nat → ChunkOutcome) :
    CallTrace Document :=
  let docs := filterDocuments documents
  if docs.length > SAFETY_LIMIT then ⟨true, [], []⟩
  else
    let futures := chunkList docs
    ⟨false, futures, awaitPut ((List.range futures.length).map outcomes)⟩

/-- `re.sub` with the pattern `[:=<>]` restricted to a replacement whose
template is pure literals: the query is scanned left to right and the
literal string is substituted for every operator character.  This is the
behaviour `re.sub` has for replacement strings containing no backslash
(in particular for the fixed single-space replacement `_search` passes);
the general template semantics is `reSubTemplate` below. -/
def reSubOperators (replacement : List Char) : List Char → List Char
  | [] => []
  | c :: rest =>
    (if c ∈ [':', '=', '<', '>'] then replacement else [c]) ++
      reSubOperators replacement rest

/-- The default value of the `replacement` parameter of
`main._strip_operators`: a single space. -/
def defaultReplacement : PyVal := PyVal.pyStr [' ']

/-- Membership in Python `string.whitespace`, the characters removed by
`str.strip()`. -/
def isPythonSpace (c : Char) : Bool := decide (c ∈ string_whitespace)

/-- Python `query.strip()`: whitespace removed from both ends. -/
def pyStrip (s : List Char) : List Char :=
  ((s.dropWhile isPythonSpace).reverse.dropWhile isPythonSpace).reverse

/-- `sre_parse.OCTDIGITS`. -/
def sre_OCTDIGITS : List Char := ['0', '1', '2', '3', '4', '5', '6', '7']

/-- `sre_parse.DIGITS`. -/
def sre_DIGITS : List Char := ['0', '1', '2', '3', '4', '5', '6', '7', '8', '9']

/-- Value of a string of octal digits, as `int(s, 8)`. -/
def octValue (ds : List Char) : Nat :=
  List.foldl (fun acc c => 8 * acc + (c.toNat - 48)) 0 ds

/-- Value of a string of decimal digits. -/
def decValue (ds : List Char) : Nat :=
  List.foldl (fun acc c => 10 * acc + (c.toNat - 48)) 0 ds

/-- `sre_parse.isident`: a letter or an underscore. -/
def pyIsIdent (c : Char) : Bool :=
  decide (('a' ≤ c ∧ c ≤ 'z') ∨ ('A' ≤ c ∧ c ≤ 'Z') ∨ c = '_')

/-- `sre_parse.isname`: an identifier character followed by identifier
characters or digits. -/
def pyIsName : List Char → Bool
  | [] => false
  | c :: rest => pyIsIdent c && rest.all (fun x => pyIsIdent x || x.isDigit)

/-- Python `int(s)` on a string: whitespace stripped, an optional sign,
then decimal digits; `none` when the string is not a valid integer. -/
def pyIntOfString (s : List Char) : Option Int :=
  match pyStrip s with
  | [] => Option.none
  | '+' :: ds =>
    if ds ≠ [] ∧ ds.all Char.isDigit then some ((decValue ds : Nat) : Int)
    else Option.none
  | '-' :: ds =>
    if ds ≠ [] ∧ ds.all Char.isDigit then some (-((decValue ds : Nat) : Int))
    else Option.none
  | c :: ds =>
    if (c :: ds).all Char.isDigit then some ((decValue (c :: ds) : Nat) : Int)
    else Option.none

/-- The scan for the closing `>` of a `\g<name>` group reference: the
name and the remainder, or `none` when the template ends first. -/
def spanUntilGt : List Char → Option (List Char × List Char)
  | [] => Option.none
  | c :: rest =>
    if c = '>' then some ([], rest)
    else
      match spanUntilGt rest with
      | Option.none => Option.none
      | some (name, rest2) => some (c :: name, rest2)

/-- The escape table `sre_parse.ESCAPES` for two-character template
escapes: the character code the escape denotes, or `none` for an unknown
escape (which `parse_template` keeps literally). -/
def sre_escape_code (c : Char) : Option Nat :=
  if c = 'a' then some 7
  else if c = 'b' then some 8
  else if c = 'f' then some 12
  else if c = 'n' then some 10
  else if c = 'r' then some 13
  else if c = 't' then some 9
  else if c = 'v' then some 11
  else if c = '\\' then some 92
  else Option.none

/-- `sre_parse.parse_template` (Python 2.7) for the group-free pattern
`[:=<>]` with an empty group-name index, written with fuel bounding the
template length: a trailing backslash is the tokenizer's bogus escape;
`\g<name>` resolves integer names to group marks (negative numbers and
non-identifier or unknown names are errors); `\0` with up to two more
octal digits is an octal character escape, as is `\ddd` with three octal
digits, while other `\d`/`\dd` sequences are decimal group marks; known
two-character escapes become their character and unknown ones stay as two
literal characters. -/
def parseTemplateLoop : Nat → List Char → Except ReError (List TemplateItem)
  | _, [] => .ok []
  | 0, _ :: _ => .ok []
  | fuel + 1, c :: rest =>
    if c = '\\' then
      match rest with
      | [] => .error .bogusEscape
      | e :: rest2 =>
        if e = 'g' then
          match rest2 with
          | '<' :: rest3 =>
            match spanUntilGt rest3 with
            | Option.none => .error .unterminatedGroupName
            | some (name, rest4) =>
              if name = [] then .error .missingGroupName
              else
                match pyIntOfString name with
                | some i =>
                  if i < 0 then .error .negativeGroupNumber
                  else (parseTemplateLoop fuel rest4).map (TemplateItem.mark i.toNat :: ·)
                | Option.none =>
                  if pyIsName name then .error .unknownGroupName
                  else .error .badCharacterInGroupName
          | _ => .error .missingGroupName
        else if e = '0' then
          match rest2 with
          | d1 :: rest3 =>
            if d1 ∈ sre_OCTDIGITS then
              match rest3 with
              | d2 :: rest4 =>
                if d2 ∈ sre_OCTDIGITS then
                  (parseTemplateLoop fuel rest4).map
                    (TemplateItem.lit (Char.ofNat (octValue ['0', d1, d2] % 256)) :: ·)
                else
                  (parseTemplateLoop fuel rest3).map
                    (TemplateItem.lit (Char.ofNat (octValue ['0', d1] % 256)) :: ·)
              | [] =>
                (parseTemplateLoop fuel rest3).map
                  (TemplateItem.lit (Char.ofNat (octValue ['0', d1] % 256)) :: ·)
            else (parseTemplateLoop fuel rest2).map (TemplateItem.lit (Char.ofNat 0) :: ·)
          | [] => (parseTemplateLoop fuel rest2).map (TemplateItem.lit (Char.ofNat 0) :: ·)
        else if e ∈ sre_DIGITS then
          match rest2 with
          | d2 :: rest3 =>
            if d2 ∈ sre_DIGITS then
              match rest3 with
              | d3 :: rest4 =>
                if e ∈ sre_OCTDIGITS ∧ d2 ∈ sre_OCTDIGITS ∧ d3 ∈ sre_OCTDIGITS then
                  (parseTemplateLoop fuel rest4).map
                    (TemplateItem.lit (Char.ofNat (octValue [e, d2, d3] % 256)) :: ·)
                else
                  (parseTemplateLoop fuel rest3).map (TemplateItem.mark (decValue [e, d2]) :: ·)
              | [] => (parseTemplateLoop fuel rest3).map (TemplateItem.mark (decValue [e, d2]) :: ·)
            else (parseTemplateLoop fuel rest2).map (TemplateItem.mark (decValue [e]) :: ·)
          | [] => (parseTemplateLoop fuel rest2).map (TemplateItem.mark (decValue [e]) :: ·)
        else
          match sre_escape_code e with
          | some n => (parseTemplateLoop fuel rest2).map (TemplateItem.lit (Char.ofNat n) :: ·)
          | Option.none =>
            (parseTemplateLoop fuel rest2).map
              (fun t => TemplateItem.lit '\\' :: TemplateItem.lit e :: t)
    else (parseTemplateLoop fuel rest).map (TemplateItem.lit c :: ·)

/-- The parsed replacement template: `parseTemplateLoop` with enough fuel
(each step consumes at least one character). -/
def parse_template (r : List Char) : Except ReError (List TemplateItem) :=
  parseTemplateLoop r.length r

/-- `sre_parse.expand_template` for one match of the group-free pattern
`[:=<>]`: literals are kept, a mark referring to group 0 is the matched
character, and any other group mark is an invalid group reference (the
pattern has no groups). -/
def expandTemplate (matched : Char) : List TemplateItem → Except ReError (List Char)
  | [] => .ok []
  | TemplateItem.lit c :: rest => (expandTemplate matched rest).map (fun t => c :: t)
  | TemplateItem.mark 0 :: rest => (expandTemplate matched rest).map (fun t => matched :: t)
  | TemplateItem.mark (_ + 1) :: _ => .error .invalidGroupReference

/-- The substitution scan of `re.sub('[:=<>]', replacement, query)` over a
parsed template: non-matching characters are kept, and each operator
character is replaced by the expanded template; an invalid group
reference surfaces when the first occurrence is expanded (Python 2.7
expands per match), so a query without operators is returned unchanged. -/
def reSubTemplate (q : List Char) (tpl : List TemplateItem) : Except ReError (List Char) :=
  match q with
  | [] => .ok []
  | c :: rest =>
    if c ∈ [':', '=', '<', '>'] then
      match expandTemplate c tpl with
      | .error e => .error e
      | .ok repl => (reSubTemplate rest tpl).map (fun t => repl ++ t)
    else (reSubTemplate rest tpl).map (fun t => c :: t)

/-- `main._strip_operators`: raises `TypeError` unless both arguments are
strings, and otherwise runs `re.sub('[:=<>]', replacement, query)`, whose
replacement-template errors propagate as `re.error`. -/
def strip_operators (query : PyVal) (replacement : PyVal) : Except PyError PyVal :=
  match query with
  | .pyStr q =>
    match replacement with
    | .pyStr r =>
      match parse_template r with
      | .error e => .error (.reError e)
      | .ok tpl =>
        match reSubTemplate q tpl with
        | .error e => .error (.reError e)
        | .ok res => .ok (.pyStr res)
    | _ => .error .typeError
  | _ => .error .typeError

/-- `search.MAXIMUM_QUERY_LENGTH` of the external App Engine Search API
backend contract. -/
def MAXIMUM_QUERY_LENGTH : Nat := 2000

/-- Outcome of the single backend search request issued by `main._search`
(the request is made with `ids_only` options, so a successful result is a
list of document identifiers): success, a `search.Error` (which includes
the `QueryError` raised while parsing the query), a deadline signal, or a
quota signal. -/
inductive SearchOutcome where
  | results (ids : List DocId)
  | searchError
  | deadlineExceeded
  | overQuota

/-- `main._search`: raises `TypeError` for non-string queries; returns `[]`
when the stripped query is empty or over the maximum query length; and
otherwise issues one backend search for the operator-stripped query,
translating every backend failure into `[]`. -/
def searchCall (query : PyVal) (backend : List Char → SearchOutcome) :
    Except PyError (List DocId) :=
  match query with
  | .pyStr s =>
    let q := pyStrip s
    if q.length ≤ 0 ∨ MAXIMUM_QUERY_LENGTH < q.length then .ok []
    else
      match backend (reSubOperators [' '] q) with
      | .results l => .ok l
      | .searchError => .ok []
      | .deadlineExceeded => .ok []
      | .overQuota => .ok []
  | _ => .error .typeError

/-- The two environment-provided credential strings (`main._USERNAME`,
`main._PASSWORD`), each absent when the variable is unset. -/
structure Config where
  username : Option (List Char)
  password : Option (List Char)

/-- The HTTP Basic credentials carried by a request
(`flask.request.authorization`), when present. -/
structure BasicAuth where
  username : List Char
  password : List Char

/-- `search.Index`: the remote index, identified by its name. -/
structure Index where
  name : List Char
deriving DecidableEq

/-- `main.get_search_index`: when both configured credentials are present,
a request carrying matching Basic credentials yields the index named after
the username; anything else yields `None`. -/
def get_search_index (cfg : Config) (auth : Option BasicAuth) : Option Index :=
  match cfg.username, cfg.password with
  | some u, some p =>
    match auth with
    | Option.none => Option.none
    | some a => if a.username = u ∧ a.password = p then some ⟨u⟩ else Option.none
  | _, _ => Option.none

/-- Python `s.encode(ascii)` on a unicode string: succeeds exactly when
every character is in the 7-bit ASCII range. -/
def encodeAscii (s : List Char) : Option (List Char) :=
  if s.all (fun c => decide (c.toNat < 128)) then some s else Option.none

/-- One iteration of the entry loop in `main.delete_view`: a string entry
is ASCII-encoded (skipped on `UnicodeEncodeError`) and kept when it is a
valid document identifier; calling `.encode` on a non-string JSON value
raises an uncaught `AttributeError`, modelled as the error case. -/
def encodeEntry (entry : PyVal) : Except Unit (Option DocId) :=
  match entry with
  | .pyStr s =>
    .ok (match encodeAscii s with
      | some doc_id => if is_valid_doc_id (.pyStr doc_id) then some doc_id else Option.none
      | Option.none => Option.none)
  | _ => .error ()

/-- The entry loop of `main.delete_view` over the whole JSON array. -/
def collectIds : List PyVal → Except Unit (List DocId)
  | [] => .ok []
  | e :: rest =>
    match encodeEntry e with
    | .error u => .error u
    | .ok o =>
      match collectIds rest with
      | .error u => .error u
      | .ok ids =>
        .ok (match o with
          | some d => d :: ids
          | Option.none => ids)

/-- HTTP response of `main.delete_view` together with the trace of the
gateway call it made, `none` when `_delete` was never invoked. -/
structure DeleteViewResult where
  status : Nat
  trace : Option (CallTrace DocId)

/-- `main.delete_view`: 401 without any further processing when
authentication fails; a JSON array body is reduced to its valid
identifiers and passed to `_delete` (413 when the safety-limit
`ValueError` comes back); any other body is a no-op success. -/
def delete_view (cfg : Config) (auth : Option BasicAuth) (request_json : Option PyVal)
    (outcomes : Nat → ChunkOutcome) : DeleteViewResult :=
  match get_search_index cfg auth with
  | Option.none => ⟨401, Option.none⟩
  | some _ =>
    match request_json with
    | some (.pyList entries) =>
      match collectIds entries with
      | .error _ => ⟨500, Option.none⟩
      | .ok ids =>
        let t := deleteCall ids outcomes
        if t.overLimitError then ⟨413, some t⟩ else ⟨200, some t⟩
    | _ => ⟨200, Option.none⟩

/-- HTTP response of `main.get_view`: status, whether `_search` was
invoked, and the JSON body. -/
structure GetViewResult where
  status : Nat
  searched : Bool
  body : List DocId

/-- `main.get_view`: 401 without any further processing when
authentication fails; otherwise runs `_search` on the `q` parameter when
it is a non-empty string and renders the identifier list. -/
def get_view (cfg : Config) (auth : Option BasicAuth) (q : Option (List Char))
    (backend : List Char → SearchOutcome) : GetViewResult :=
  match get_search_index cfg auth with
  | Option.none => ⟨401, false, []⟩
  | some _ =>
    match q with
    | some s =>
      if s.length > 0 then
        match searchCall (.pyStr s) backend with
        | .ok l => ⟨200, true, l⟩
        | .error _ => ⟨500, true, []⟩
      else ⟨200, false, []⟩
    | Option.none => ⟨200, false, []⟩

/-- `main._FIELD_NAME`. -/
def FIELD_NAME : List Char := ['t']

/-- `search.MAXIMUM_FIELD_VALUE_LENGTH` of the external App Engine Search
API backend contract: text field values are truncated to this length. -/
def MAXIMUM_FIELD_VALUE_LENGTH : Nat := 1048576

/-- One iteration of the key/value loop in `main.put_view`: the key is
ASCII-encoded (skipped on `UnicodeEncodeError`) and a document is built
when the key is a valid identifier and the value a non-empty string, the
value truncated to the maximum field length. -/
def buildDocument (k : List Char) (v : PyVal) : Option Document :=
  match encodeAscii k with
  | Option.none => Option.none
  | some doc_id =>
    if is_valid_doc_id (.pyStr doc_id) then
      match v with
      | .pyStr s =>
        if s.length > 0 then
          some ⟨doc_id, [⟨FIELD_NAME, s.take MAXIMUM_FIELD_VALUE_LENGTH⟩]⟩
        else Option.none
      | _ => Option.none
    else Option.none

/-- HTTP response of `main.put_view` together with the trace of the
gateway call it made, `none` when `_put` was never invoked. -/
structure PutViewResult where
  status : Nat
  trace : Option (CallTrace Document)

/-- `main.put_view` (serving both POST and PUT): 401 without any further
processing when authentication fails; a JSON object body is converted to
one document per valid key/value pair and submitted as a single `_put`
batch (413 when the safety-limit `ValueError` comes back); any other body
is a no-op success. -/
def put_view (cfg : Config) (auth : Option BasicAuth) (request_json : Option PyVal)
    (outcomes : Nat → ChunkOutcome) : PutViewResult :=
  match get_search_index cfg auth with
  | Option.none => ⟨401, Option.none⟩
  | some _ =>
    match request_json with
    | some (.pyDict entries) =>
      let documents := entries.filterMap fun kv => buildDocument kv.1 kv.2
      let t := putCall (documents.map PutItem.document) outcomes
      if t.overLimitError then ⟨413, some t⟩ else ⟨200, some t⟩
    | _ => ⟨200, Option.none⟩

theorem mem_visible_printable (c : Char) (h : c ∈ VISIBLE_PRINTABLE_ASCII) :
    33 ≤ c.toNat ∧ c.toNat ≤ 126 := by
  revert h
  have : ∀ x ∈ VISIBLE_PRINTABLE_ASCII, 33 ≤ x.toNat ∧ x.toNat ≤ 126 := by decide
  exact fun h => this c h

theorem visible_printable_of_range (c : Char) (h1 : 33 ≤ c.toNat)
    (h2 : c.toNat ≤ 126) : c ∈ VISIBLE_PRINTABLE_ASCII := by
  have hlt : c.toNat < 127 := Nat.lt_succ_of_le h2
  have key : ∀ m : Fin 127, 33 ≤ m.val →
      Char.ofNat m.val ∈ VISIBLE_PRINTABLE_ASCII := by decide
  have h3 := key ⟨c.toNat, hlt⟩ h1
  simpa using h3

theorem is_valid_doc_id_pyStr (s : List Char) :
    is_valid_doc_id (PyVal.pyStr s) = true ↔
      (¬s = [] ∧ s.length ≤ MAXIMUM_DOCUMENT_ID_LENGTH) ∧
        startsWithList s ['!'] = false ∧
        (startsWithList s ['_', '_'] = false ∨ endsWithList s ['_', '_'] = false) ∧
        ∀ c ∈ s, c ∈ VISIBLE_PRINTABLE_ASCII := by
  simp [is_valid_doc_id]

/-- Claim C1: identifier validation returns true if and only if the input
is a string of 1 to 500 visible printable ASCII characters (codes 33..126)
that does not start with `!` and does not simultaneously start and end with
a double underscore; every other input yields false. -/
theorem is_valid_doc_id_iff_spec (v : PyVal) :
    is_valid_doc_id v = true ↔ ∃ s, v = PyVal.pyStr s ∧ spec_valid_identifier s := by
  constructor
  · intro h
    match v with
    | .pyStr s =>
      refine ⟨s, rfl, ?_⟩
      obtain ⟨⟨hne, hle⟩, hex, hdu, hall⟩ := (is_valid_doc_id_pyStr s).mp h
      refine ⟨?_, ?_, ?_, hex, ?_⟩
      · have := List.length_pos.mpr hne; omega
      · simpa [MAXIMUM_DOCUMENT_ID_LENGTH] using hle
      · intro c hc; exact mem_visible_printable c (hall c hc)
      · rintro ⟨ha, hb⟩
        rcases hdu with hc | hc <;> simp [ha, hb] at hc
    | .pyNone => simp [is_valid_doc_id] at h
    | .pyBool b => simp [is_valid_doc_id] at h
    | .pyInt n => simp [is_valid_doc_id] at h
    | .pyList l => simp [is_valid_doc_id] at h
    | .pyDict d => simp [is_valid_doc_id] at h
  · rintro ⟨s, rfl, h1, h2, h3, h4, h5⟩
    refine (is_valid_doc_id_pyStr s).mpr ⟨⟨?_, ?_⟩, h4, ?_, ?_⟩
    · exact List.ne_nil_of_length_pos (by omega)
    · simpa [MAXIMUM_DOCUMENT_ID_LENGTH] using h2
    · by_cases hd : startsWithList s ['_', '_'] = true
      · right
        by_contra hb
        exact h5 ⟨hd, by simpa using hb⟩
      · left; simpa using hd
    · intro c hc
      exact visible_printable_of_range c (h3 c hc).1 (h3 c hc).2


theorem chunksLoop_flatten {α : Type} :
    ∀ (fuel : Nat) (l : List α), l.length ≤ fuel →
      (chunksLoop fuel l).flatten = l := by
  intro fuel
  induction fuel with
  | zero =>
    intro l hl
    match l with
    | [] => rfl
  | succ n ih =>
    intro l hl
    match l with
    | [] => rfl
    | a :: t =>
      have hdrop : ((a :: t).drop BATCH_SIZE).length ≤ n := by
        have hB : BATCH_SIZE = 200 := rfl
        simp only [List.length_drop, hB, List.length_cons]
        simp only [List.length_cons] at hl
        omega
      calc (chunksLoop (n + 1) (a :: t)).flatten
          = (a :: t).take BATCH_SIZE ++ (chunksLoop n ((a :: t).drop BATCH_SIZE)).flatten := by
            simp [chunksLoop]
        _ = (a :: t).take BATCH_SIZE ++ (a :: t).drop BATCH_SIZE := by
            rw [ih _ hdrop]
        _ = a :: t := List.take_append_drop _ _

theorem chunkList_flatten {α : Type} (l : List α) :
    (chunkList l).flatten = l :=
  chunksLoop_flatten l.length l (Nat.le_refl _)

theorem chunksLoop_mem {α : Type} :
    ∀ (fuel : Nat) (l : List α) (c : List α), c ∈ chunksLoop fuel l →
      c.length ≤ BATCH_SIZE ∧ c ≠ [] := by
  intro fuel
  induction fuel with
  | zero =>
    intro l c hc
    match l with
    | [] => simp [chunksLoop] at hc
    | _ :: _ => simp [chunksLoop] at hc
  | succ n ih =>
    intro l c hc
    match l with
    | [] => simp [chunksLoop] at hc
    | a :: t =>
      simp only [chunksLoop, List.mem_cons] at hc
      rcases hc with rfl | hc
      · constructor
        · exact List.length_take_le BATCH_SIZE (a :: t)
        · have : 0 < BATCH_SIZE := by decide
          simp [List.take_eq_nil_iff]
          omega
      · exact ih _ c hc

theorem awaitDelete_no_quota :
    ∀ os : List ChunkOutcome, ChunkOutcome.overQuota ∉ os → awaitDelete os = os := by
  intro os
  induction os with
  | nil => intro _; rfl
  | cons o rest ih =>
    intro h
    have ho : o ≠ ChunkOutcome.overQuota := fun hq => h (hq ▸ List.mem_cons_self o rest)
    have hrest : ChunkOutcome.overQuota ∉ rest := fun hq => h (List.mem_cons_of_mem o hq)
    cases o with
    | overQuota => exact absurd rfl ho
    | ok => simp [awaitDelete, ih hrest]
    | backendError => simp [awaitDelete, ih hrest]
    | deadlineExceeded => simp [awaitDelete, ih hrest]

theorem awaitDelete_quota_split :
    ∀ (pre post : List ChunkOutcome), ChunkOutcome.overQuota ∉ pre →
      awaitDelete (pre ++ ChunkOutcome.overQuota :: post) =
        pre ++ [ChunkOutcome.overQuota] := by
  intro pre
  induction pre with
  | nil => intro post _; rfl
  | cons o rest ih =>
    intro post h
    have ho : o ≠ ChunkOutcome.overQuota := fun hq => h (hq ▸ List.mem_cons_self o rest)
    have hrest : ChunkOutcome.overQuota ∉ rest := fun hq => h (List.mem_cons_of_mem o hq)
    cases o with
    | overQuota => exact absurd rfl ho
    | ok => simp [awaitDelete, ih post hrest]
    | backendError => simp [awaitDelete, ih post hrest]
    | deadlineExceeded => simp [awaitDelete, ih post hrest]

theorem awaitPut_eq_awaitDelete : ∀ os : List ChunkOutcome, awaitPut os = awaitDelete os := by
  intro os
  induction os with
  | nil => rfl
  | cons o rest ih =>
    cases o with
    | overQuota => rfl
    | ok => simp [awaitPut, awaitDelete, ih]
    | backendError => simp [awaitPut, awaitDelete, ih]
    | deadlineExceeded => simp [awaitPut, awaitDelete, ih]


theorem deleteCall_of_overLimit {α : Type} (ids : List α) (f : Nat → ChunkOutcome)
    (h : ids.length > SAFETY_LIMIT) : deleteCall ids f = ⟨true, [], []⟩ := by
  simp [deleteCall, h]

theorem deleteCall_of_withinLimit {α : Type} (ids : List α) (f : Nat → ChunkOutcome)
    (h : ids.length ≤ SAFETY_LIMIT) :
    deleteCall ids f =
      ⟨false, chunkList ids, awaitDelete ((List.range (chunkList ids).length).map f)⟩ := by
  have hn : ¬ids.length > SAFETY_LIMIT := by omega
  simp [deleteCall, hn]

theorem putCall_of_overLimit (items : List PutItem) (f : Nat → ChunkOutcome)
    (h : (filterDocuments items).length > SAFETY_LIMIT) :
    putCall items f = ⟨true, [], []⟩ := by
  simp [putCall, h]

theorem putCall_of_withinLimit (items : List PutItem) (f : Nat → ChunkOutcome)
    (h : (filterDocuments items).length ≤ SAFETY_LIMIT) :
    putCall items f =
      ⟨false, chunkList (filterDocuments items),
        awaitPut ((List.range (chunkList (filterDocuments items)).length).map f)⟩ := by
  have hn : ¬(filterDocuments items).length > SAFETY_LIMIT := by omega
  simp [putCall, hn]

theorem filterDocuments_map (l : List Document) :
    filterDocuments (l.map PutItem.document) = l := by
  induction l with
  | nil => rfl
  | cons d t ih => simpa [filterDocuments, List.filterMap_cons] using ih

theorem filterDocuments_nonDocument (rest : List PutItem) :
    filterDocuments (PutItem.nonDocument :: rest) = filterDocuments rest := by
  simp [filterDocuments, List.filterMap_cons]

theorem filterDocuments_replicate (n : Nat) (d : Document) :
    filterDocuments (List.replicate n (PutItem.document d)) = List.replicate n d := by
  rw [← List.map_replicate]
  exact filterDocuments_map _

/-- Claim C7: for every identifier list within the safety limit, delete
splits it into consecutive chunks no larger than the backend maximum per
call, whose concatenation in order is the original list, and dispatches
exactly one asynchronous delete per chunk. -/
theorem delete_chunking (ids : List DocId) (f : Nat → ChunkOutcome)
    (h : ids.length ≤ SAFETY_LIMIT) :
    (deleteCall ids f).overLimitError = false ∧
    (deleteCall ids f).dispatched = chunkList ids ∧
    (deleteCall ids f).dispatched.flatten = ids ∧
    ∀ c ∈ (deleteCall ids f).dispatched, c.length ≤ BATCH_SIZE ∧ c ≠ [] := by
  rw [deleteCall_of_withinLimit ids f h]
  refine ⟨rfl, rfl, chunkList_flatten ids, ?_⟩
  intro c hc
  exact chunksLoop_mem _ _ c hc

theorem delete_chunking_witness :
    (deleteCall [(['a'] : DocId), ['b']] (fun _ => ChunkOutcome.ok)).dispatched.flatten =
      [(['a'] : DocId), ['b']] :=
  (delete_chunking [['a'], ['b']] (fun _ => ChunkOutcome.ok) (by decide)).2.2.1

/-- Claim C3: in delete and put aggregation, chunks failing with a generic
backend error or deadline are skipped while every remaining chunk is still
awaited, whereas the first chunk reporting quota exhaustion makes the call
return immediately without awaiting any remaining chunk. -/
theorem chunk_failure_policy (ids : List DocId) (items : List PutItem)
    (f g : Nat → ChunkOutcome) (os ps : List ChunkOutcome)
    (hid : ids.length ≤ SAFETY_LIMIT)
    (hitems : (filterDocuments items).length ≤ SAFETY_LIMIT)
    (hos : os = (List.range (chunkList ids).length).map f)
    (hps : ps = (List.range (chunkList (filterDocuments items)).length).map g) :
    (ChunkOutcome.overQuota ∉ os → (deleteCall ids f).awaited = os) ∧
    (∀ pre post, os = pre ++ ChunkOutcome.overQuota :: post →
      ChunkOutcome.overQuota ∉ pre →
      (deleteCall ids f).awaited = pre ++ [ChunkOutcome.overQuota]) ∧
    (ChunkOutcome.overQuota ∉ ps → (putCall items g).awaited = ps) ∧
    (∀ pre post, ps = pre ++ ChunkOutcome.overQuota :: post →
      ChunkOutcome.overQuota ∉ pre →
      (putCall items g).awaited = pre ++ [ChunkOutcome.overQuota]) := by
  rw [deleteCall_of_withinLimit ids f hid, putCall_of_withinLimit items g hitems]
  subst hos hps
  refine ⟨?_, ?_, ?_, ?_⟩
  · intro hq
    exact awaitDelete_no_quota _ hq
  · intro pre post heq hpre
    rw [heq]
    exact awaitDelete_quota_split pre post hpre
  · intro hq
    rw [awaitPut_eq_awaitDelete]
    exact awaitDelete_no_quota _ hq
  · intro pre post heq hpre
    rw [heq, awaitPut_eq_awaitDelete]
    exact awaitDelete_quota_split pre post hpre

theorem chunk_failure_policy_witness :
    (deleteCall [(['a'] : DocId)] (fun _ => ChunkOutcome.backendError)).awaited =
      [ChunkOutcome.backendError] :=
  (chunk_failure_policy [['a']] [] (fun _ => ChunkOutcome.backendError)
      (fun _ => ChunkOutcome.ok) [ChunkOutcome.backendError] []
      (by decide) (by decide) (by decide) (by decide)).1 (by decide)

/-- Claim C2: for both delete and put, a batch of exactly the safety limit
is accepted while a batch one longer raises the over-limit error before
any chunk is dispatched, leaving the index unchanged; the HTTP adapter
reports that error as HTTP 413. -/
theorem safety_limit_boundary (ids ids2 : List DocId) (docs docs2 : List Document)
    (f : Nat → ChunkOutcome)
    (h1 : ids.length = SAFETY_LIMIT) (h2 : ids2.length = SAFETY_LIMIT + 1)
    (h3 : docs.length = SAFETY_LIMIT) (h4 : docs2.length = SAFETY_LIMIT + 1) :
    (deleteCall ids f).overLimitError = false ∧
    (putCall (docs.map PutItem.document) f).overLimitError = false ∧
    deleteCall ids2 f = ⟨true, [], []⟩ ∧
    putCall (docs2.map PutItem.document) f = ⟨true, [], []⟩ ∧
    (∀ cfg auth i entries, get_search_index cfg auth = some i →
      collectIds entries = Except.ok ids2 →
      delete_view cfg auth (some (PyVal.pyList entries)) f = ⟨413, some ⟨true, [], []⟩⟩) ∧
    (∀ cfg auth i entries, get_search_index cfg auth = some i →
      entries.filterMap (fun kv => buildDocument kv.1 kv.2) = docs2 →
      put_view cfg auth (some (PyVal.pyDict entries)) f = ⟨413, some ⟨true, [], []⟩⟩) := by
  have hdel2 : deleteCall ids2 f = ⟨true, [], []⟩ :=
    deleteCall_of_overLimit ids2 f (by omega)
  have hput2 : putCall (docs2.map PutItem.document) f = ⟨true, [], []⟩ :=
    putCall_of_overLimit _ f (by rw [filterDocuments_map]; omega)
  refine ⟨?_, ?_, hdel2, hput2, ?_, ?_⟩
  · rw [deleteCall_of_withinLimit ids f (by omega)]
  · rw [putCall_of_withinLimit _ f (by rw [filterDocuments_map]; omega)]
  · intro cfg auth i entries hgsi hcoll
    simp only [delete_view, hgsi, hcoll, hdel2]
    rfl
  · intro cfg auth i entries hgsi hdocs
    simp only [put_view, hgsi, hdocs, hput2]
    rfl

theorem safety_limit_boundary_witness :
    (deleteCall (List.replicate SAFETY_LIMIT (['i'] : DocId)) (fun _ => ChunkOutcome.ok)).overLimitError = false ∧
    deleteCall (List.replicate (SAFETY_LIMIT + 1) (['i'] : DocId)) (fun _ => ChunkOutcome.ok) =
      ⟨true, [], []⟩ := by
  have h := safety_limit_boundary
    (List.replicate SAFETY_LIMIT ['i']) (List.replicate (SAFETY_LIMIT + 1) ['i'])
    (List.replicate SAFETY_LIMIT ⟨['d'], []⟩) (List.replicate (SAFETY_LIMIT + 1) ⟨['d'], []⟩)
    (fun _ => ChunkOutcome.ok) (by simp) (by simp) (by simp) (by simp)
  exact ⟨h.1, h.2.2.1⟩

/-- Claim C6 (amended): put raises the over-limit error exactly when the
number of `search.Document` entries left after filtering out non-Document
values exceeds the safety limit, and is otherwise symmetric to delete on
that filtered list: same chunking by the backend batch size and the same
await policy, so the whole call trace coincides with delete's. -/
theorem put_symmetric_to_delete (items : List PutItem) (f : Nat → ChunkOutcome) :
    ((putCall items f).overLimitError = true ↔
      SAFETY_LIMIT < (filterDocuments items).length) ∧
    putCall items f = deleteCall (filterDocuments items) f := by
  by_cases h : (filterDocuments items).length > SAFETY_LIMIT
  · rw [putCall_of_overLimit items f h, deleteCall_of_overLimit _ f h]
    simpa using h
  · have hle : (filterDocuments items).length ≤ SAFETY_LIMIT := by omega
    rw [putCall_of_withinLimit items f hle, deleteCall_of_withinLimit _ f hle,
      awaitPut_eq_awaitDelete]
    simpa using h

/-- Counterexample to claim C6 as stated: a put batch of 15001 values, one
of which is not a `search.Document`, exceeds the safety limit in length
yet raises no over-limit error, because `_put` filters the list before
measuring it. -/
theorem put_overlimit_counterexample :
    SAFETY_LIMIT <
      (PutItem.nonDocument ::
        List.replicate SAFETY_LIMIT (PutItem.document ⟨['d'], []⟩)).length ∧
    (putCall
        (PutItem.nonDocument ::
          List.replicate SAFETY_LIMIT (PutItem.document ⟨['d'], []⟩))
        (fun _ => ChunkOutcome.ok)).overLimitError = false := by
  constructor
  · rw [List.length_cons, List.length_replicate]
    omega
  · have hfd : (filterDocuments
        (PutItem.nonDocument ::
          List.replicate SAFETY_LIMIT (PutItem.document ⟨['d'], []⟩))).length ≤ SAFETY_LIMIT := by
      rw [filterDocuments_nonDocument, filterDocuments_replicate, List.length_replicate]
    rw [putCall_of_withinLimit _ _ hfd]

theorem isPyStr_false_iff (v : PyVal) :
    isPyStr v = false ↔ ∀ s, v ≠ PyVal.pyStr s := by
  cases v <;> simp [isPyStr]

theorem reSubOperators_append (r a b : List Char) :
    reSubOperators r (a ++ b) = reSubOperators r a ++ reSubOperators r b := by
  induction a with
  | nil => rfl
  | cons c rest ih => simp [reSubOperators, ih]

theorem reSubOperators_space_idempotent (s : List Char) :
    reSubOperators [' '] (reSubOperators [' '] s) = reSubOperators [' '] s := by
  induction s with
  | nil => rfl
  | cons c rest ih =>
    simp only [reSubOperators]
    by_cases h : c ∈ [':', '=', '<', '>']
    · rw [if_pos h]
      simp only [List.singleton_append, reSubOperators]
      have hsp : (' ' : Char) ∉ [':', '=', '<', '>'] := by decide
      rw [if_neg hsp]
      simp [ih]
    · rw [if_neg h]
      simp only [List.singleton_append, reSubOperators]
      rw [if_neg h]
      simp [ih]

theorem isPyStr_true_iff (v : PyVal) :
    isPyStr v = true ↔ ∃ s, v = PyVal.pyStr s := by
  cases v <;> simp [isPyStr]

theorem parseTemplateLoop_no_backslash :
    ∀ (fuel : Nat) (r : List Char), r.length ≤ fuel → '\\' ∉ r →
      parseTemplateLoop fuel r = Except.ok (r.map TemplateItem.lit) := by
  intro fuel
  induction fuel with
  | zero =>
    intro r h hb
    match r with
    | [] => rfl
  | succ n ih =>
    intro r h hb
    match r with
    | [] => rfl
    | c :: rest =>
      have hc : ¬c = '\\' := fun hh => hb (hh ▸ List.mem_cons_self c rest)
      have hrest : '\\' ∉ rest := fun hm => hb (List.mem_cons_of_mem c hm)
      have hlen : rest.length ≤ n := by
        simp only [List.length_cons] at h
        omega
      simp only [parseTemplateLoop, if_neg hc]
      rw [ih rest hlen hrest]
      rfl

theorem parse_template_no_backslash (r : List Char) (h : '\\' ∉ r) :
    parse_template r = Except.ok (r.map TemplateItem.lit) :=
  parseTemplateLoop_no_backslash r.length r (Nat.le_refl _) h

theorem expandTemplate_lits (m : Char) (r : List Char) :
    expandTemplate m (r.map TemplateItem.lit) = Except.ok r := by
  induction r with
  | nil => rfl
  | cons c rest ih =>
    simp only [List.map_cons, expandTemplate]
    rw [ih]
    rfl

theorem reSubTemplate_lits (r q : List Char) :
    reSubTemplate q (r.map TemplateItem.lit) = Except.ok (reSubOperators r q) := by
  induction q with
  | nil => rfl
  | cons c rest ih =>
    simp only [reSubTemplate, reSubOperators]
    by_cases h : c ∈ [':', '=', '<', '>']
    · rw [if_pos h, if_pos h, expandTemplate_lits, ih]
      rfl
    · rw [if_neg h, if_neg h, ih]
      rfl

theorem reSubTemplate_invalid_mark :
    ∀ (q : List Char) (c : Char), c ∈ q → c ∈ [':', '=', '<', '>'] →
      reSubTemplate q [TemplateItem.mark 1] = Except.error ReError.invalidGroupReference := by
  intro q
  induction q with
  | nil =>
    intro c hc
    exact absurd hc (List.not_mem_nil c)
  | cons x rest ih =>
    intro c hc hop
    by_cases hx : x ∈ [':', '=', '<', '>']
    · simp only [reSubTemplate, if_pos hx]
      rfl
    · have hcrest : c ∈ rest := by
        rcases List.mem_cons.mp hc with rfl | hm
        · exact absurd hop hx
        · exact hm
      simp only [reSubTemplate, if_neg hx]
      rw [ih c hcrest hop]
      rfl

theorem strip_operators_ne_typeError (q r : List Char) :
    strip_operators (PyVal.pyStr q) (PyVal.pyStr r) ≠ Except.error PyError.typeError := by
  simp only [strip_operators]
  cases hp : parse_template r with
  | error e => simp
  | ok tpl =>
    cases hs : reSubTemplate q tpl with
    | error e => simp [hs]
    | ok res => simp [hs]

theorem strip_operators_literal (q r : List Char) (h : '\\' ∉ r) :
    strip_operators (PyVal.pyStr q) (PyVal.pyStr r) =
      Except.ok (PyVal.pyStr (reSubOperators r q)) := by
  have hparse := parse_template_no_backslash r h
  have hsub := reSubTemplate_lits r q
  simp [strip_operators, hparse, hsub]

/-- Counterexample to claim C8 as stated: with the replacement string of
the two characters backslash and 1, the program raises the re module's
invalid-group-reference error on a query containing an operator instead
of returning the query with the occurrence replaced by the replacement,
and with backslash-n it inserts a newline rather than those two
characters — re.sub interprets the replacement as a template. -/
theorem strip_operators_template_counterexample :
    strip_operators (PyVal.pyStr ['a', ':', 'b']) (PyVal.pyStr ['\\', '1']) =
      Except.error (PyError.reError ReError.invalidGroupReference) ∧
    strip_operators (PyVal.pyStr ['a', ':', 'b']) (PyVal.pyStr ['\\', '1']) ≠
      Except.ok (PyVal.pyStr ['a', '\\', '1', 'b']) ∧
    strip_operators (PyVal.pyStr ['a', ':', 'b']) (PyVal.pyStr ['\\', 'n']) =
      Except.ok (PyVal.pyStr ['a', '\n', 'b']) ∧
    ['a', '\n', 'b'] ≠ ['a', '\\', 'n', 'b'] := by
  refine ⟨rfl, ?_, rfl, by decide⟩
  intro h
  have h2 : (Except.error (PyError.reError ReError.invalidGroupReference) :
      Except PyError PyVal) = Except.ok (PyVal.pyStr ['a', '\\', '1', 'b']) := h
  exact Except.noConfusion h2

/-- Claim C8 (amended): strip_relational_operators raises a type error if
and only if one of its arguments is not a string; for string arguments
the replacement is interpreted as a re.sub template, so a numbered group
reference (the pattern has no groups) raises an invalid-group-reference
error at the first replaced occurrence and backslash escapes such as
backslash-n are translated to their character; for a replacement
containing no backslash — the default single space included — every
occurrence of each of the characters : = < > is independently replaced by
the replacement, so "foo := bar" becomes "foo    bar". -/
theorem strip_operators_spec_amended (query replacement : PyVal) :
    (strip_operators query replacement = Except.error PyError.typeError ↔
      isPyStr query = false ∨ isPyStr replacement = false) ∧
    (∀ q r, query = PyVal.pyStr q → replacement = PyVal.pyStr r → '\\' ∉ r →
      strip_operators query replacement = Except.ok (PyVal.pyStr (reSubOperators r q))) ∧
    (∀ (r a b : List Char),
      reSubOperators r (a ++ b) = reSubOperators r a ++ reSubOperators r b) ∧
    (∀ (r : List Char) (c : Char), c ∈ [':', '=', '<', '>'] →
      reSubOperators r [c] = r) ∧
    (∀ (r : List Char) (c : Char), c ∉ [':', '=', '<', '>'] →
      reSubOperators r [c] = [c]) ∧
    (∀ q (c : Char), query = PyVal.pyStr q → c ∈ q → c ∈ [':', '=', '<', '>'] →
      replacement = PyVal.pyStr ['\\', '1'] →
      strip_operators query replacement =
        Except.error (PyError.reError ReError.invalidGroupReference)) ∧
    (∀ q, query = PyVal.pyStr q → replacement = PyVal.pyStr ['\\', 'n'] →
      strip_operators query replacement =
        Except.ok (PyVal.pyStr (reSubOperators ['\n'] q))) ∧
    strip_operators (PyVal.pyStr "foo := bar".toList) defaultReplacement =
      Except.ok (PyVal.pyStr "foo    bar".toList) := by
  refine ⟨?_, ?_, reSubOperators_append, ?_, ?_, ?_, ?_, ?_⟩
  · constructor
    · intro h
      by_contra hcon
      push_neg at hcon
      have hq : isPyStr query = true := by
        cases hqq : isPyStr query
        · exact absurd hqq hcon.1
        · rfl
      have hr : isPyStr replacement = true := by
        cases hrr : isPyStr replacement
        · exact absurd hrr hcon.2
        · rfl
      obtain ⟨q, rfl⟩ := (isPyStr_true_iff query).mp hq
      obtain ⟨r, rfl⟩ := (isPyStr_true_iff replacement).mp hr
      exact strip_operators_ne_typeError q r h
    · intro h
      rcases h with h | h
      · cases query with
        | pyStr q => simp [isPyStr] at h
        | pyNone => rfl
        | pyBool b => rfl
        | pyInt n => rfl
        | pyList l => rfl
        | pyDict d => rfl
      · cases replacement with
        | pyStr r => simp [isPyStr] at h
        | pyNone => cases query <;> rfl
        | pyBool b => cases query <;> rfl
        | pyInt n => cases query <;> rfl
        | pyList l => cases query <;> rfl
        | pyDict d => cases query <;> rfl
  · rintro q r rfl rfl hnb
    exact strip_operators_literal q r hnb
  · intro r c h
    simp [reSubOperators, h]
  · intro r c h
    simp [reSubOperators, h]
  · rintro q c rfl hcq hcop rfl
    have hp : parse_template ['\\', '1'] = Except.ok [TemplateItem.mark 1] := rfl
    have hs := reSubTemplate_invalid_mark q c hcq hcop
    simp [strip_operators, hp, hs]
  · rintro q rfl rfl
    have hp : parse_template ['\\', 'n'] = Except.ok [TemplateItem.lit '\n'] := rfl
    have hs : reSubTemplate q [TemplateItem.lit '\n'] =
        Except.ok (reSubOperators ['\n'] q) := by
      simpa using reSubTemplate_lits ['\n'] q
    simp [strip_operators, hp, hs]
  · exact strip_operators_literal "foo := bar".toList [' '] (by decide)

/-- Claim C10: stripping relational operators with the default replacement
is idempotent, because the replacement character contains no operator
character. -/
theorem strip_operators_idempotent (q : List Char) :
    (strip_operators (PyVal.pyStr q) defaultReplacement).bind
        (fun r => strip_operators r defaultReplacement) =
      strip_operators (PyVal.pyStr q) defaultReplacement := by
  simp only [defaultReplacement]
  rw [strip_operators_literal q [' '] (by decide)]
  simp only [Except.bind]
  rw [strip_operators_literal (reSubOperators [' '] q) [' '] (by decide),
    reSubOperators_space_idempotent]

/-- Claim C4: search raises a type error if and only if the query is not a
string; for string queries it returns an empty list whenever the trimmed
query is empty or over the backend maximum query length, it returns an
empty list on every backend failure, and it never surfaces an error to the
caller. -/
theorem search_error_policy (query : PyVal) (backend : List Char → SearchOutcome) :
    (searchCall query backend = Except.error PyError.typeError ↔
      isPyStr query = false) ∧
    (∀ s, query = PyVal.pyStr s →
      (((pyStrip s).length = 0 ∨ MAXIMUM_QUERY_LENGTH < (pyStrip s).length) →
        searchCall query backend = Except.ok []) ∧
      ((backend (reSubOperators [' '] (pyStrip s)) = SearchOutcome.searchError ∨
        backend (reSubOperators [' '] (pyStrip s)) = SearchOutcome.deadlineExceeded ∨
        backend (reSubOperators [' '] (pyStrip s)) = SearchOutcome.overQuota) →
        searchCall query backend = Except.ok []) ∧
      ∃ l, searchCall query backend = Except.ok l) := by
  constructor
  · cases query with
    | pyStr s =>
      simp only [isPyStr]
      constructor
      · intro h
        exfalso
        simp only [searchCall] at h
        by_cases hlen : (pyStrip s).length ≤ 0 ∨ MAXIMUM_QUERY_LENGTH < (pyStrip s).length
        · rw [if_pos hlen] at h
          exact Except.noConfusion h
        · rw [if_neg hlen] at h
          cases hb : backend (reSubOperators [' '] (pyStrip s)) <;>
            rw [hb] at h <;> exact Except.noConfusion h
      · intro h
        exact absurd h (by simp)
    | pyNone => simp [searchCall, isPyStr]
    | pyBool b => simp [searchCall, isPyStr]
    | pyInt n => simp [searchCall, isPyStr]
    | pyList l => simp [searchCall, isPyStr]
    | pyDict d => simp [searchCall, isPyStr]
  · rintro s rfl
    refine ⟨?_, ?_, ?_⟩
    · intro hlen
      have hlen2 : (pyStrip s).length ≤ 0 ∨ MAXIMUM_QUERY_LENGTH < (pyStrip s).length := by
        omega
      simp only [searchCall]
      rw [if_pos hlen2]
    · intro hb
      simp only [searchCall]
      by_cases hlen : (pyStrip s).length ≤ 0 ∨ MAXIMUM_QUERY_LENGTH < (pyStrip s).length
      · rw [if_pos hlen]
      · rw [if_neg hlen]
        rcases hb with hb | hb | hb <;> rw [hb]
    · simp only [searchCall]
      by_cases hlen : (pyStrip s).length ≤ 0 ∨ MAXIMUM_QUERY_LENGTH < (pyStrip s).length
      · exact ⟨[], by rw [if_pos hlen]⟩
      · rw [if_neg hlen]
        cases hb : backend (reSubOperators [' '] (pyStrip s)) with
        | results l => exact ⟨l, rfl⟩
        | searchError => exact ⟨[], rfl⟩
        | deadlineExceeded => exact ⟨[], rfl⟩
        | overQuota => exact ⟨[], rfl⟩

/-- Claim C5: on every verb, a request fails with HTTP 401 and performs no
validation, gateway or backend operation whenever a configured credential
is absent, the request carries no Basic credentials, or a supplied field
differs from the configured value; when authentication succeeds, the index
used downstream is named after the configured username. -/
theorem authentication_gate (cfg : Config) (auth : Option BasicAuth)
    (body : Option PyVal) (q : Option (List Char))
    (f : Nat → ChunkOutcome) (backend : List Char → SearchOutcome) :
    ((cfg.username = Option.none ∨ cfg.password = Option.none ∨ auth = Option.none ∨
      (∃ u p a, cfg.username = some u ∧ cfg.password = some p ∧ auth = some a ∧
        (a.username ≠ u ∨ a.password ≠ p))) →
      get_search_index cfg auth = Option.none) ∧
    (get_search_index cfg auth = Option.none →
      delete_view cfg auth body f = ⟨401, Option.none⟩ ∧
      get_view cfg auth q backend = ⟨401, false, []⟩ ∧
      put_view cfg auth body f = ⟨401, Option.none⟩) ∧
    (∀ i, get_search_index cfg auth = some i → cfg.username = some i.name) := by
  obtain ⟨cu, cp⟩ := cfg
  refine ⟨?_, ?_, ?_⟩
  · rintro (h | h | h | ⟨u, p, a, hu, hp, ha, hne⟩)
    · simp only at h
      subst h
      rfl
    · simp only at h
      subst h
      cases cu <;> rfl
    · subst h
      cases cu <;> cases cp <;> rfl
    · simp only at hu hp
      subst hu hp ha
      simp only [get_search_index]
      rw [if_neg]
      rintro ⟨h1, h2⟩
      rcases hne with hne | hne
      · exact hne h1
      · exact hne h2
  · intro h
    exact ⟨by simp [delete_view, h], by simp [get_view, h], by simp [put_view, h]⟩
  · intro i hi
    match cu, cp, auth with
    | Option.none, _, _ => exact absurd hi (by simp [get_search_index])
    | some u, Option.none, _ => exact absurd hi (by simp [get_search_index])
    | some u, some p, Option.none => exact absurd hi (by simp [get_search_index])
    | some u, some p, some a =>
      simp only [get_search_index] at hi
      by_cases hc : a.username = u ∧ a.password = p
      · rw [if_pos hc] at hi
        cases hi
        rfl
      · rw [if_neg hc] at hi
        exact Option.noConfusion hi

theorem buildDocument_isSome_iff (k : List Char) (v : PyVal) :
    (buildDocument k v).isSome = true ↔
      (is_valid_doc_id (PyVal.pyStr k) = true ∧
        ∃ s, v = PyVal.pyStr s ∧ 0 < s.length) := by
  by_cases hA : k.all (fun c => decide (c.toNat < 128)) = true
  · have hek : encodeAscii k = some k := by simp [encodeAscii, hA]
    simp only [buildDocument, hek]
    by_cases hval : is_valid_doc_id (PyVal.pyStr k) = true
    · rw [if_pos hval]
      cases v with
      | pyStr s =>
        dsimp only
        by_cases hs : s.length > 0
        · rw [if_pos hs]
          constructor
          · exact fun _ => ⟨hval, s, rfl, hs⟩
          · exact fun _ => rfl
        · rw [if_neg hs]
          constructor
          · intro hcon
            exact absurd hcon (by simp)
          · rintro ⟨-, s2, hs2, hlen2⟩
            cases hs2
            exact absurd hlen2 hs
      | pyNone => simp [hval]
      | pyBool b => simp [hval]
      | pyInt n => simp [hval]
      | pyList l => simp [hval]
      | pyDict d => simp [hval]
    · rw [if_neg hval]
      simp [hval]
  · have hek : encodeAscii k = Option.none := by simp [encodeAscii, hA]
    simp only [buildDocument, hek]
    constructor
    · intro h
      exact absurd h (by simp)
    · rintro ⟨hval, -⟩
      exfalso
      apply hA
      rw [List.all_eq_true]
      intro c hc
      have hmem := ((is_valid_doc_id_pyStr k).mp hval).2.2.2 c hc
      have hrange := mem_visible_printable c hmem
      simp only [decide_eq_true_eq]
      omega

/-- Claim C9: for authenticated POST/PUT requests, a body that is not a
JSON object is a no-op success; an object body yields exactly one document
per key whose identifier validates and whose value is a non-empty string,
the value truncated to the backend maximum field length, and the resulting
documents are submitted as a single put batch. -/
theorem put_view_builds_documents (cfg : Config) (auth : Option BasicAuth)
    (i : Index) (body : Option PyVal) (f : Nat → ChunkOutcome)
    (h : get_search_index cfg auth = some i) :
    ((∀ entries, body ≠ some (PyVal.pyDict entries)) →
      put_view cfg auth body f = ⟨200, Option.none⟩) ∧
    (∀ entries, body = some (PyVal.pyDict entries) →
      (put_view cfg auth body f).trace =
        some (putCall ((entries.filterMap fun kv => buildDocument kv.1 kv.2).map
          PutItem.document) f)) ∧
    (∀ k v, (buildDocument k v).isSome = true ↔
      (is_valid_doc_id (PyVal.pyStr k) = true ∧ ∃ s, v = PyVal.pyStr s ∧ 0 < s.length)) ∧
    (∀ k s, is_valid_doc_id (PyVal.pyStr k) = true → 0 < s.length →
      buildDocument k (PyVal.pyStr s) =
        some ⟨k, [⟨FIELD_NAME, s.take MAXIMUM_FIELD_VALUE_LENGTH⟩]⟩) := by
  refine ⟨?_, ?_, buildDocument_isSome_iff, ?_⟩
  · intro hne
    match body with
    | Option.none => simp [put_view, h]
    | some PyVal.pyNone => simp [put_view, h]
    | some (PyVal.pyBool b) => simp [put_view, h]
    | some (PyVal.pyInt n) => simp [put_view, h]
    | some (PyVal.pyStr s) => simp [put_view, h]
    | some (PyVal.pyList l) => simp [put_view, h]
    | some (PyVal.pyDict entries) => exact absurd rfl (hne entries)
  · rintro entries rfl
    simp only [put_view, h]
    by_cases hover : (putCall ((entries.filterMap fun kv =>
        buildDocument kv.1 kv.2).map PutItem.document) f).overLimitError = true
    · rw [if_pos hover]
    · rw [if_neg hover]
  · intro k s hk hs
    have hA : k.all (fun c => decide (c.toNat < 128)) = true := by
      rw [List.all_eq_true]
      intro c hc
      have hr := mem_visible_printable c (((is_valid_doc_id_pyStr k).mp hk).2.2.2 c hc)
      simp only [decide_eq_true_eq]
      omega
    simp [buildDocument, encodeAscii, hA, hk, hs]

theorem put_view_builds_documents_witness :
    put_view ⟨some ['u'], some ['p']⟩ (some ⟨['u'], ['p']⟩) Option.none
        (fun _ => ChunkOutcome.ok) = ⟨200, Option.none⟩ :=
  (put_view_builds_documents ⟨some ['u'], some ['p']⟩ (some ⟨['u'], ['p']⟩) ⟨['u']⟩
      Option.none (fun _ => ChunkOutcome.ok) (by decide)).1
    (fun entries hcon => Option.noConfusion hcon)

end Recap
